import Mathlib

/-!
# lighthouse-to-spreadsheet: a verification development of `main.go`

The Go program reads a Lighthouse report, reads the state of the git
repository, composes one spreadsheet row and appends it to a Google sheet,
writing a header row first when the sheet is still empty.

The embedding is shallow.  Every Go function becomes a Lean function of the
same name.  What the Go code obtains from the outside world (files, the git
executable, the Sheets service, the clock) is passed in as an explicit
argument, and what it changes in the outside world (the rows of the sheet,
the calls sent to the service, the lines printed) is returned as a value.

Go `float64` cells are modelled by exact rationals: rounding and range of
binary floating point are not part of the model.
-/

set_option autoImplicit false

namespace LighthouseToSpreadsheet

/-! ## Errors, cells, rows -/

/-- Go `error` values of the program: errors handed over by the operating
system, git, or the Sheets service (`env`), and the two errors
`json.Unmarshal` raises (`malformed` for a document that fails the scan,
`unmarshalType` for a `json.UnmarshalTypeError`). -/
inductive Error where
  | env (msg : String)
  | malformed
  | unmarshalType (value : String) (target : String)
  deriving DecidableEq, Repr

/-- One cell of a row: the `interface{}` values put into `headerValues` and
`rowValues` are Go strings and Go `float64`s. -/
inductive Cell where
  | str (s : String)
  | num (q : ℚ)
  deriving DecidableEq, Repr

/-- A row is a `[]interface{}`. -/
abbrev Row := List Cell

/-- The sheet (the sink): its rows, first row first. -/
abbrev Sink := List Row

/-! ## The Sheets service -/

/-- A request sent to the Sheets service, with the spreadsheet id, the range
and, for an append, the rows of the `ValueRange`. -/
inductive SinkCall where
  | get (spreadsheetId : String) (range : String)
  | append (spreadsheetId : String) (range : String) (values : List Row)
  deriving DecidableEq, Repr

/-- What the outside world answers during one run of `AppendSpreadSheet`:
`none` is success, `some err` the error returned.  The five fields are, in
program order, `loadGoogleCredential`, `sheets.New`, the `Values.Get` of
column A, the `Values.Append` of the header and the `Values.Append` of the
data row. -/
structure SheetsApi where
  loadGoogleCredential : Option Error
  sheetsNew : Option Error
  valuesGet : Option Error
  appendHeader : Option Error
  appendData : Option Error
  deriving DecidableEq, Repr

/-- The state of the remote side: the rows of the sheet and the requests
received so far, oldest first. -/
structure Store where
  rows : Sink
  calls : List SinkCall
  deriving DecidableEq, Repr

/-- The values of the range `A:A`: one entry per row of the sheet, holding
that row's first cell.  It is empty exactly when the sheet has no rows. -/
def columnA (rows : Sink) : List Row :=
  rows.map (List.take 1)

/-- The call `srv.Spreadsheets.Values.Get(spreadsheetId, range).Do()`: the
request is recorded; a failing call returns its error, a successful one the
values of column A.  The sheet is not changed. -/
def valuesGet (outcome : Option Error) (st : Store) (spreadsheetId range : String) :
    Except Error (List Row) × Store :=
  let st1 : Store := { st with calls := st.calls ++ [SinkCall.get spreadsheetId range] }
  match outcome with
  | some err => (Except.error err, st1)
  | none => (Except.ok (columnA st.rows), st1)

/-- The call `srv.Spreadsheets.Values.Append(spreadsheetId, range, values)`
with `ValueInputOption("RAW")` and `InsertDataOption("INSERT_ROWS")`: the
request is recorded; a failing call leaves the sheet as it is, a successful
one inserts the rows after the last row of the sheet. -/
def valuesAppend (outcome : Option Error) (st : Store) (spreadsheetId range : String)
    (values : List Row) : Option Error × Store :=
  let st1 : Store := { st with calls := st.calls ++ [SinkCall.append spreadsheetId range values] }
  match outcome with
  | some err => (some err, st1)
  | none => (none, { st1 with rows := st1.rows ++ values })

/-- The returned `error` of `AppendSpreadSheet` (`none` for `nil`) together
with the state of the remote side after the call. -/
structure AppendResult where
  err : Option Error
  store : Store
  deriving DecidableEq, Repr

/-- `AppendSpreadSheet` of `main.go`, lines 107-149. -/
def AppendSpreadSheet (api : SheetsApi) (st : Store) (spreadsheetId sheetName : String)
    (headerValues rowValues : Row) : AppendResult :=
  match api.loadGoogleCredential with
  | some err => ⟨some err, st⟩
  | none =>
  match api.sheetsNew with
  | some err => ⟨some err, st⟩
  | none =>
  let rangeData := sheetName ++ "!A:A"
  match valuesGet api.valuesGet st spreadsheetId rangeData with
  | (Except.error err, st1) => ⟨some err, st1⟩
  | (Except.ok currentData, st1) =>
  if currentData.length = 0 then
    match valuesAppend api.appendHeader st1 spreadsheetId rangeData [headerValues] with
    | (some err, st2) => ⟨some err, st2⟩
    | (none, st2) =>
      match valuesAppend api.appendData st2 spreadsheetId rangeData [rowValues] with
      | (some err, st3) => ⟨some err, st3⟩
      | (none, st3) => ⟨none, st3⟩
  else
    match valuesAppend api.appendData st1 spreadsheetId rangeData [rowValues] with
    | (some err, st3) => ⟨some err, st3⟩
    | (none, st3) => ⟨none, st3⟩

/-- Successive calls of `AppendSpreadSheet` against the same sheet with the
same header, one per entry of the list, each with its own answers of the
outside world and its own data row.  Returns the sheet after the last call
and the error returned by each call. -/
def successiveAppends (spreadsheetId sheetName : String) (headerValues : Row) :
    Store → List (SheetsApi × Row) → Store × List (Option Error)
  | st, [] => (st, [])
  | st, (api, rowValues) :: rest =>
    let r := AppendSpreadSheet api st spreadsheetId sheetName headerValues rowValues
    let (stEnd, errs) := successiveAppends spreadsheetId sheetName headerValues r.store rest
    (stEnd, r.err :: errs)

/-- The answers of an outside world in which every step succeeds. -/
def okApi : SheetsApi := ⟨none, none, none, none, none⟩


/-! ## The report document and `json.Unmarshal` -/

/-- A JSON document after the scan of `encoding/json`: the tree of values.
The members of an object are kept in document order, duplicates included. -/
inductive JSON where
  | null
  | bool (b : Bool)
  | num (q : ℚ)
  | str (s : String)
  | arr (items : List JSON)
  | obj (members : List (String × JSON))

/-- One audit entry of the report: `numericValue` and `score`. -/
structure Metric where
  Value : ℚ
  Score : ℚ
  deriving DecidableEq, Repr

/-- An element of `AuditRefs`. -/
structure AuditRef where
  Id : String
  Weight : ℚ
  deriving DecidableEq, Repr

/-- The field `Categories.Performance`. -/
structure Performance where
  Score : ℚ
  AuditRefs : List AuditRef
  deriving DecidableEq, Repr

/-- The field `Categories`. -/
structure Categories where
  Performance : Performance
  deriving DecidableEq, Repr

/-- The field `Audits`: the eight audit entries. -/
structure Audits where
  LCP : Metric
  CLS : Metric
  TBT : Metric
  FCP : Metric
  FMP : Metric
  SI : Metric
  TTFB : Metric
  TTI : Metric
  deriving DecidableEq, Repr

/-- The struct `LighthouseResult` of `main.go`, lines 21-65. -/
structure LighthouseResult where
  Categories : Categories
  Audits : Audits
  deriving DecidableEq, Repr

/-- The Go zero value of `Metric`. -/
def Metric.zero : Metric := ⟨0, 0⟩

/-- The Go zero value of an element of `AuditRefs`. -/
def AuditRef.zero : AuditRef := ⟨"", 0⟩

/-- The Go zero value of `LighthouseResult`: what `var result LighthouseResult`
holds before `json.Unmarshal` runs. -/
def LighthouseResult.zero : LighthouseResult :=
  ⟨⟨⟨0, []⟩⟩, ⟨Metric.zero, Metric.zero, Metric.zero, Metric.zero,
    Metric.zero, Metric.zero, Metric.zero, Metric.zero⟩⟩

/-- Case folding of one character of an object key, as far as it matters for
a comparison with the field names of `LighthouseResult`, which are ASCII:
ASCII lower case letters fold to upper case, and the only two other
characters that `encoding/json` folds onto an ASCII letter are the Kelvin
sign U+212A (onto K) and the long s U+017F (onto S). -/
def foldRune (c : Char) : Char :=
  if 97 ≤ c.toNat ∧ c.toNat ≤ 122 then Char.ofNat (c.toNat - 32)
  else if c.toNat = 0x212A then 'K'
  else if c.toNat = 0x017F then 'S'
  else c

/-- The folded form of a key. -/
def foldName (s : String) : List Char :=
  s.data.map foldRune

/-- Whether an object key selects the struct field of the given JSON name:
`encoding/json` takes an exact match and otherwise a case-insensitive one.
The field names of one struct of `LighthouseResult` differ also after
folding, so a key selects at most one field. -/
def keyMatches (key fieldName : String) : Bool :=
  foldName key == foldName fieldName

/-- The `saveError` of the decoder: the first error is kept. -/
def saveError (saved err : Option Error) : Option Error :=
  match saved with
  | some e => some e
  | none => err

/-- The word `json.UnmarshalTypeError` uses for a JSON value. -/
def JSON.kind : JSON → String
  | JSON.null => "null"
  | JSON.bool _ => "bool"
  | JSON.num _ => "number"
  | JSON.str _ => "string"
  | JSON.arr _ => "array"
  | JSON.obj _ => "object"

/-- Decoding into a `float64` field: a number is stored, `null` leaves the
field as it is, any other value is a type error and leaves the field as it
is. -/
def decodeFloat64 (j : JSON) (old : ℚ) : ℚ × Option Error :=
  match j with
  | JSON.num q => (q, none)
  | JSON.null => (old, none)
  | other => (old, some (Error.unmarshalType other.kind "float64"))

/-- Decoding into a `string` field. -/
def decodeString (j : JSON) (old : String) : String × Option Error :=
  match j with
  | JSON.str s => (s, none)
  | JSON.null => (old, none)
  | other => (old, some (Error.unmarshalType other.kind "string"))

/-- One member of an object decoded into a struct: `field` decodes the
member into the field its key selects and ignores a key that selects none;
an error it raises is saved, and decoding goes on. -/
def decodeMember {α : Type} (field : α → String × JSON → α × Option Error)
    (acc : α × Option Error) (kv : String × JSON) : α × Option Error :=
  ((field acc.1 kv).1, saveError acc.2 (field acc.1 kv).2)

/-- Decoding into a struct: the members of an object are handled in document
order; `null` leaves the struct as it is; any other value is a type error
and leaves the struct as it is. -/
def decodeStruct {α : Type} (typeName : String)
    (field : α → String × JSON → α × Option Error) (j : JSON) (old : α) : α × Option Error :=
  match j with
  | JSON.obj members => members.foldl (decodeMember field) (old, none)
  | JSON.null => (old, none)
  | other => (old, some (Error.unmarshalType other.kind typeName))

/-- The fields of an audit entry. -/
def Metric.field (m : Metric) (kv : String × JSON) : Metric × Option Error :=
  if keyMatches kv.1 "numericValue" then
    ({ m with Value := (decodeFloat64 kv.2 m.Value).1 }, (decodeFloat64 kv.2 m.Value).2)
  else if keyMatches kv.1 "score" then
    ({ m with Score := (decodeFloat64 kv.2 m.Score).1 }, (decodeFloat64 kv.2 m.Score).2)
  else (m, none)

/-- Decoding into an audit entry. -/
def decodeMetric (j : JSON) (old : Metric) : Metric × Option Error :=
  decodeStruct "Metric" Metric.field j old

/-- The fields of an element of `AuditRefs`. -/
def AuditRef.field (r : AuditRef) (kv : String × JSON) : AuditRef × Option Error :=
  if keyMatches kv.1 "id" then
    ({ r with Id := (decodeString kv.2 r.Id).1 }, (decodeString kv.2 r.Id).2)
  else if keyMatches kv.1 "weight" then
    ({ r with Weight := (decodeFloat64 kv.2 r.Weight).1 }, (decodeFloat64 kv.2 r.Weight).2)
  else (r, none)

/-- Decoding into the slice `AuditRefs`: for an array the slice is reset and
one element is appended per item; `null` sets the slice to nil; any other
value is a type error.  The program never reads `AuditRefs`; what matters
here is whether decoding it raises an error. -/
def decodeAuditRefs (j : JSON) (old : List AuditRef) : List AuditRef × Option Error :=
  match j with
  | JSON.arr items =>
    items.foldl (fun acc item =>
        (acc.1 ++ [(decodeStruct "AuditRef" AuditRef.field item AuditRef.zero).1],
          saveError acc.2 (decodeStruct "AuditRef" AuditRef.field item AuditRef.zero).2))
      ([], none)
  | JSON.null => ([], none)
  | other => (old, some (Error.unmarshalType other.kind "[]AuditRef"))

/-- The fields of `Categories.Performance`. -/
def Performance.field (p : Performance) (kv : String × JSON) : Performance × Option Error :=
  if keyMatches kv.1 "score" then
    ({ p with Score := (decodeFloat64 kv.2 p.Score).1 }, (decodeFloat64 kv.2 p.Score).2)
  else if keyMatches kv.1 "AuditRefs" then
    ({ p with AuditRefs := (decodeAuditRefs kv.2 p.AuditRefs).1 },
      (decodeAuditRefs kv.2 p.AuditRefs).2)
  else (p, none)

/-- The fields of `Categories`. -/
def Categories.field (c : Categories) (kv : String × JSON) : Categories × Option Error :=
  if keyMatches kv.1 "performance" then
    (⟨(decodeStruct "Performance" Performance.field kv.2 c.Performance).1⟩,
      (decodeStruct "Performance" Performance.field kv.2 c.Performance).2)
  else (c, none)

/-- The eight audit entries the program reads. -/
inductive MetricKey where
  | LCP | CLS | TBT | FCP | FMP | SI | TTFB | TTI
  deriving DecidableEq, Repr

/-- The JSON name of an audit entry: the tag of its field in `Audits`. -/
def MetricKey.jsonName : MetricKey → String
  | MetricKey.LCP => "largest-contentful-paint"
  | MetricKey.CLS => "cumulative-layout-shift"
  | MetricKey.TBT => "total-blocking-time"
  | MetricKey.FCP => "first-contentful-paint"
  | MetricKey.FMP => "first-meaningful-paint"
  | MetricKey.SI => "speed-index"
  | MetricKey.TTFB => "server-response-time"
  | MetricKey.TTI => "interactive"

/-- Reading the field of `Audits` for an audit entry. -/
def Audits.get (a : Audits) : MetricKey → Metric
  | MetricKey.LCP => a.LCP
  | MetricKey.CLS => a.CLS
  | MetricKey.TBT => a.TBT
  | MetricKey.FCP => a.FCP
  | MetricKey.FMP => a.FMP
  | MetricKey.SI => a.SI
  | MetricKey.TTFB => a.TTFB
  | MetricKey.TTI => a.TTI

/-- Writing the field of `Audits` for an audit entry. -/
def Audits.set (a : Audits) (k : MetricKey) (m : Metric) : Audits :=
  match k with
  | MetricKey.LCP => { a with LCP := m }
  | MetricKey.CLS => { a with CLS := m }
  | MetricKey.TBT => { a with TBT := m }
  | MetricKey.FCP => { a with FCP := m }
  | MetricKey.FMP => { a with FMP := m }
  | MetricKey.SI => { a with SI := m }
  | MetricKey.TTFB => { a with TTFB := m }
  | MetricKey.TTI => { a with TTI := m }

/-- The field of `Audits` an object key selects, if any. -/
def Audits.lookup (key : String) : Option MetricKey :=
  [MetricKey.LCP, MetricKey.CLS, MetricKey.TBT, MetricKey.FCP, MetricKey.FMP, MetricKey.SI,
    MetricKey.TTFB, MetricKey.TTI].find? (fun k => keyMatches key k.jsonName)

/-- The fields of `Audits`. -/
def Audits.field (a : Audits) (kv : String × JSON) : Audits × Option Error :=
  match Audits.lookup kv.1 with
  | some k => (a.set k (decodeMetric kv.2 (a.get k)).1, (decodeMetric kv.2 (a.get k)).2)
  | none => (a, none)

/-- The fields of `LighthouseResult`. -/
def LighthouseResult.field (r : LighthouseResult) (kv : String × JSON) :
    LighthouseResult × Option Error :=
  if keyMatches kv.1 "Categories" then
    ({ r with Categories := (decodeStruct "Categories" Categories.field kv.2 r.Categories).1 },
      (decodeStruct "Categories" Categories.field kv.2 r.Categories).2)
  else if keyMatches kv.1 "audits" then
    ({ r with Audits := (decodeStruct "Audits" Audits.field kv.2 r.Audits).1 },
      (decodeStruct "Audits" Audits.field kv.2 r.Audits).2)
  else (r, none)

/-- The decode step of `json.Unmarshal(jsonBuffer, &result)` for a document
that passed the scan: the tree is decoded into the zero `LighthouseResult`,
and the first saved error, if there is one, is returned. -/
def decodeDocument (doc : JSON) : Except Error LighthouseResult :=
  match decodeStruct "LighthouseResult" LighthouseResult.field doc LighthouseResult.zero with
  | (_, some err) => Except.error err
  | (result, none) => Except.ok result

/-- The call `json.Unmarshal(jsonBuffer, &result)`.  The scan of the bytes
into a tree belongs to `encoding/json` and is a parameter: `scan` returns
`none` for bytes that are not a JSON document. -/
def Unmarshal (scan : String → Option JSON) (jsonBuffer : String) :
    Except Error LighthouseResult :=
  match scan jsonBuffer with
  | none => Except.error Error.malformed
  | some doc => decodeDocument doc

/-- An open file: what `io.ReadAll` returns for it. -/
structure File where
  ReadAll : Except Error String

/-- The file system: what `os.Open` returns for a path. -/
structure FileSystem where
  Open : String → Except Error File

/-- `ReadLighthouseResult` of `main.go`, lines 67-85.  The path opened is
the string literal of line 68; the argument `filePath` is not used. -/
def ReadLighthouseResult (scan : String → Option JSON) (fs : FileSystem) (filePath : String) :
    Except Error LighthouseResult :=
  match fs.Open "./example/lighthouse.report.json" with
  | Except.error err => Except.error err
  | Except.ok jsonFile =>
    match jsonFile.ReadAll with
    | Except.error err => Except.error err
    | Except.ok jsonBuffer => Unmarshal scan jsonBuffer

/-! ## Documents that lack an audit entry or one of its fields -/

/-- Editing the members of an object: each member is dropped (`none`) or
replaced; a value that is not an object is left as it is. -/
def JSON.editMembers (g : String × JSON → Option (String × JSON)) : JSON → JSON
  | JSON.obj members => JSON.obj (members.filterMap g)
  | other => other

/-- What a document may lack of an audit entry: the whole entry, its
`numericValue`, or its `score`. -/
inductive Missing where
  | entry
  | numericValue
  | score
  deriving DecidableEq, Repr

/-- The audit entry as decoded from a document that lacks the given part:
the Go zero value in its place. -/
def Metric.without (w : Missing) (m : Metric) : Metric :=
  match w with
  | Missing.entry => Metric.zero
  | Missing.numericValue => { m with Value := 0 }
  | Missing.score => { m with Score := 0 }

/-- An audit entry with every member that selects the named field removed. -/
def JSON.dropField (fieldName : String) (j : JSON) : JSON :=
  j.editMembers (fun kv => if keyMatches kv.1 fieldName then none else some kv)

/-- An `audits` object with the given part of the audit entry `k` removed,
from every member that selects `k`. -/
def JSON.auditsWithout (k : MetricKey) (w : Missing) (j : JSON) : JSON :=
  j.editMembers (fun kv =>
    if Audits.lookup kv.1 = some k then
      match w with
      | Missing.entry => none
      | Missing.numericValue => some (kv.1, kv.2.dropField "numericValue")
      | Missing.score => some (kv.1, kv.2.dropField "score")
    else some kv)

/-- A report document with the given part of the audit entry `k` removed:
the document lacks that entry, or that field of the entry, and is otherwise
the same. -/
def JSON.without (k : MetricKey) (w : Missing) (doc : JSON) : JSON :=
  doc.editMembers (fun kv =>
    if keyMatches kv.1 "audits" then some (kv.1, kv.2.auditsWithout k w) else some kv)

/-- A result with the given part of the audit entry `k` set to zero. -/
def LighthouseResult.without (k : MetricKey) (w : Missing) (r : LighthouseResult) :
    LighthouseResult :=
  { r with Audits := r.Audits.set k ((r.Audits.get k).without w) }

/-- An audit entry of a document: `numericValue` and `score`. -/
def sampleEntry (value score : ℚ) : JSON :=
  JSON.obj [("numericValue", JSON.num value), ("score", JSON.num score)]

/-- A complete report document: the performance score and all eight audit
entries, each with both fields. -/
def sampleReport : JSON :=
  JSON.obj [
    ("categories", JSON.obj [("performance", JSON.obj [("score", JSON.num (87 / 100))])]),
    ("audits", JSON.obj [
      ("largest-contentful-paint", sampleEntry 2400 (9 / 10)),
      ("cumulative-layout-shift", sampleEntry (1 / 100) 1),
      ("total-blocking-time", sampleEntry 150 (8 / 10)),
      ("first-contentful-paint", sampleEntry 1200 (9 / 10)),
      ("first-meaningful-paint", sampleEntry 1300 (9 / 10)),
      ("speed-index", sampleEntry 2000 (7 / 10)),
      ("server-response-time", sampleEntry 100 1),
      ("interactive", sampleEntry 3000 (6 / 10))])]

/-- The result `sampleReport` decodes to. -/
def sampleResult : LighthouseResult :=
  ⟨⟨⟨87 / 100, []⟩⟩,
    ⟨⟨2400, 9 / 10⟩, ⟨1 / 100, 1⟩, ⟨150, 8 / 10⟩, ⟨1200, 9 / 10⟩,
      ⟨1300, 9 / 10⟩, ⟨2000, 7 / 10⟩, ⟨100, 1⟩, ⟨3000, 6 / 10⟩⟩⟩

/-- The document `sampleReport` without its `interactive` entry. -/
def reportWithoutTTI : JSON :=
  JSON.obj [
    ("categories", JSON.obj [("performance", JSON.obj [("score", JSON.num (87 / 100))])]),
    ("audits", JSON.obj [
      ("largest-contentful-paint", sampleEntry 2400 (9 / 10)),
      ("cumulative-layout-shift", sampleEntry (1 / 100) 1),
      ("total-blocking-time", sampleEntry 150 (8 / 10)),
      ("first-contentful-paint", sampleEntry 1200 (9 / 10)),
      ("first-meaningful-paint", sampleEntry 1300 (9 / 10)),
      ("speed-index", sampleEntry 2000 (7 / 10)),
      ("server-response-time", sampleEntry 100 1)])]

/-! ## The git repository -/

/-- The struct `GitStatus` of `main.go`, lines 151-157. -/
structure GitStatus where
  CommitId : String
  LastCommitMessage : String
  Branch : String
  Tags : List String
  HasUncommittedChanges : Bool
  deriving DecidableEq, Repr

/-- The Go zero value of `GitStatus`: what `var status GitStatus` holds. -/
def GitStatus.zero : GitStatus := ⟨"", "", "", [], false⟩

/-- The white space of `unicode.IsSpace`. -/
def isSpace (c : Char) : Bool :=
  c.toNat = 0x09 || c.toNat = 0x0A || c.toNat = 0x0B || c.toNat = 0x0C || c.toNat = 0x0D
    || c.toNat = 0x20 || c.toNat = 0x85 || c.toNat = 0xA0 || c.toNat = 0x1680
    || (0x2000 ≤ c.toNat && c.toNat ≤ 0x200A) || c.toNat = 0x2028 || c.toNat = 0x2029
    || c.toNat = 0x202F || c.toNat = 0x205F || c.toNat = 0x3000

/-- The library function `strings.TrimSpace`: leading and trailing white
space removed. -/
def TrimSpace (s : String) : String :=
  String.mk ((s.data.dropWhile isSpace).reverse.dropWhile isSpace).reverse

/-- Splitting a list of characters at every line feed; the empty list gives
one empty piece. -/
def splitLineFeed : List Char → List (List Char)
  | [] => [[]]
  | c :: cs =>
    if c = '\n' then [] :: splitLineFeed cs
    else
      match splitLineFeed cs with
      | piece :: pieces => (c :: piece) :: pieces
      | [] => [[c]]

/-- The library call `strings.Split(s, "\n")`. -/
def Split (s : String) : List String :=
  (splitLineFeed s.data).map String.mk

/-- The text `err.Error()` of an error. -/
def Error.message : Error → String
  | Error.env msg => msg
  | Error.malformed => "unexpected end of JSON input"
  | Error.unmarshalType value target =>
    "json: cannot unmarshal " ++ value ++ " into Go value of type " ++ target

/-- `executeGitCommand` of `main.go`, lines 159-166.  The argument `git` is
the git executable: what `cmd.Output()` returns for the given arguments. -/
def executeGitCommand (git : List String → Except Error String) (args : List String) :
    Except Error String :=
  match git args with
  | Except.error err => Except.error err
  | Except.ok out => Except.ok (TrimSpace out)

/-- What `GetGitStatus` returns, a pointer (`none` for nil) and an error
(`none` for nil), together with the lines it printed. -/
structure GitStatusResult where
  status : Option GitStatus
  err : Option Error
  stdout : List String
  deriving DecidableEq, Repr

/-- `GetGitStatus` of `main.go`, lines 168-212. -/
def GetGitStatus (git : List String → Except Error String) : GitStatusResult :=
  let s0 : GitStatus × List String := (GitStatus.zero, [])
  let s1 : GitStatus × List String :=
    match executeGitCommand git ["rev-parse", "HEAD"] with
    | Except.ok commitId => ({ s0.1 with CommitId := commitId }, s0.2)
    | Except.error err => (s0.1, s0.2 ++ ["failed to get commit id: " ++ err.message])
  let s2 : GitStatus × List String :=
    match executeGitCommand git ["log", "-1", "--pretty=%B"] with
    | Except.ok lastCommitMessage => ({ s1.1 with LastCommitMessage := lastCommitMessage }, s1.2)
    | Except.error err => (s1.1, s1.2 ++ ["failed to get last commit message: " ++ err.message])
  let s3 : GitStatus × List String :=
    match executeGitCommand git ["rev-parse", "--abbrev-ref", "HEAD"] with
    | Except.ok branch => ({ s2.1 with Branch := branch }, s2.2)
    | Except.error err => (s2.1, s2.2 ++ ["failed to get branch: " ++ err.message])
  let s4 : GitStatus × List String :=
    match executeGitCommand git ["tag", "--points-at", "HEAD"] with
    | Except.ok tags => ({ s3.1 with Tags := Split tags }, s3.2)
    | Except.error err => (s3.1, s3.2 ++ ["failed to get tags: " ++ err.message])
  let s5 : GitStatus × List String :=
    match executeGitCommand git ["status", "--porcelain"] with
    | Except.ok uncommittedChanges =>
      ({ s4.1 with HasUncommittedChanges := uncommittedChanges != "" }, s4.2)
    | Except.error err => (s4.1, s4.2 ++ ["failed to get uncommitted changes: " ++ err.message])
  ⟨some s5.1, none, s5.2⟩

/-- The library function `filepath.Base` for slash-separated paths: the last
element of the path, after trailing slashes are removed; `"."` for the empty
path and `"/"` for a path of slashes only. -/
def Base (path : String) : String :=
  if path = "" then "."
  else
    let stripped := path.data.reverse.dropWhile (fun c => c == '/')
    let last := (stripped.takeWhile (fun c => c != '/')).reverse
    if last = [] then "/" else String.mk last

/-- `GetCurrentDirBasename` of `main.go`, lines 214-220.  The argument is
what `os.Getwd()` returns. -/
def GetCurrentDirBasename (getwd : Except Error String) : String :=
  match getwd with
  | Except.error _ => ""
  | Except.ok dir => Base dir

/-! ## The row and `main` -/

/-- A wall-clock time, as `time.Now()` returns it in local time. -/
structure Time where
  Year : Nat
  Month : Nat
  Day : Nat
  Hour : Nat
  Minute : Nat
  Second : Nat
  deriving DecidableEq, Repr

/-- A number in decimal, padded with zeros on the left to the given width. -/
def zeroPad (width n : Nat) : String :=
  String.mk (List.replicate (width - (Nat.repr n).length) '0') ++ Nat.repr n

/-- The call `now.Format("2006-01-02 15:04:05")`. -/
def Time.Format (t : Time) : String :=
  zeroPad 4 t.Year ++ "-" ++ zeroPad 2 t.Month ++ "-" ++ zeroPad 2 t.Day ++ " "
    ++ zeroPad 2 t.Hour ++ ":" ++ zeroPad 2 t.Minute ++ ":" ++ zeroPad 2 t.Second

/-- The library call `strings.Join(elems, ", ")`. -/
def Join (elems : List String) : String :=
  String.intercalate ", " elems

/-- The slice `headerValues` of `main`, lines 263-272. -/
def headerValues : Row :=
  [Cell.str "プロジェクト", Cell.str "時刻",
    Cell.str "ブランチ", Cell.str "コミットメッセージ", Cell.str "タグ", Cell.str "コミットID",
    Cell.str "未コミットの変更",
    Cell.str "パフォーマンススコア",
    Cell.str "LCPスコア", Cell.str "CLSスコア", Cell.str "TBTスコア",
    Cell.str "FCPスコア", Cell.str "SIスコア",
    Cell.str "LCP", Cell.str "CLS", Cell.str "TBT",
    Cell.str "FCP", Cell.str "FMP", Cell.str "SI",
    Cell.str "TTFB", Cell.str "TTI"]

/-- The slice `rowValues` of `main`, lines 274-290, as a function of the
values it is composed from. -/
def rowValues (project : String) (now : Time) (gitStatus : GitStatus)
    (lighthouseResult : LighthouseResult) : Row :=
  let tags := Join gitStatus.Tags
  let uncommitted := if gitStatus.HasUncommittedChanges then "Y" else "N"
  [Cell.str project, Cell.str now.Format,
    Cell.str gitStatus.Branch, Cell.str gitStatus.LastCommitMessage, Cell.str tags,
    Cell.str gitStatus.CommitId, Cell.str uncommitted,
    Cell.num (lighthouseResult.Categories.Performance.Score * 100),
    Cell.num (lighthouseResult.Audits.LCP.Score * 100),
    Cell.num (lighthouseResult.Audits.CLS.Score * 100),
    Cell.num (lighthouseResult.Audits.TBT.Score * 100),
    Cell.num (lighthouseResult.Audits.FCP.Score * 100),
    Cell.num (lighthouseResult.Audits.SI.Score * 100),
    Cell.num lighthouseResult.Audits.LCP.Value, Cell.num lighthouseResult.Audits.CLS.Value,
    Cell.num lighthouseResult.Audits.TBT.Value,
    Cell.num lighthouseResult.Audits.FCP.Value, Cell.num lighthouseResult.Audits.FMP.Value,
    Cell.num lighthouseResult.Audits.SI.Value,
    Cell.num lighthouseResult.Audits.TTFB.Value, Cell.num lighthouseResult.Audits.TTI.Value]

/-- The outside world of one run of `main`. -/
structure World where
  /-- The result of `godotenv.Load()`. -/
  dotenv : Option Error
  /-- The call `os.Getenv`, after `godotenv.Load()`. -/
  Getenv : String → String
  /-- The result of `flag.Parse()`: the exit status with which it ends the
  process on a command line it rejects or on a request for help, or the value
  given to each flag that is set. -/
  flagParse : Except Nat (String → Option String)
  /-- The scan of `encoding/json`. -/
  scan : String → Option JSON
  fs : FileSystem
  git : List String → Except Error String
  Getwd : Except Error String
  Now : Time
  sheets : SheetsApi
  store : Store

/-- How a run of `main` ends: the lines printed, the exit status of the
process and the state of the remote side. -/
structure MainResult where
  stdout : List String
  exitCode : Nat
  store : Store
  deriving DecidableEq, Repr

/-- The statements of `main` from line 242 to line 295: read the report,
read the git status, compose the row, append it.  They stand after the
`return` of line 240. -/
def mainAfterReturn (w : World) (stdout : List String)
    (lighthouseResultPath spreadsheetId sheetName : String) : MainResult :=
  match ReadLighthouseResult w.scan w.fs lighthouseResultPath with
  | Except.error err =>
    ⟨stdout ++ ["Failed to read lighthouse result:  " ++ err.message], 1, w.store⟩
  | Except.ok lighthouseResult =>
    let g := GetGitStatus w.git
    let stdout1 := stdout ++ g.stdout ++
      (match g.err with
        | some err => ["Failed to get git status:  " ++ err.message]
        | none => [])
    let gitStatus := g.status.getD GitStatus.zero
    let project := GetCurrentDirBasename w.Getwd
    let now := w.Now
    let r := AppendSpreadSheet w.sheets w.store spreadsheetId sheetName headerValues
      (rowValues project now gitStatus lighthouseResult)
    match r.err with
    | some err => ⟨stdout1 ++ ["Failed to append spreadsheet:  " ++ err.message], 1, r.store⟩
    | none => ⟨stdout1, 0, r.store⟩

/-- The value of a string flag after `flag.Parse()`: the value given on the
command line, or the default passed to `flag.StringVar`. -/
def flagValue (flags : String → Option String) (name default : String) : String :=
  (flags name).getD default

/-- `main` of `main.go`, lines 222-296.  After the three settings are
printed, line 240 returns: the statements after it are never run. -/
def main (w : World) : MainResult :=
  let stdout0 : List String :=
    match w.dotenv with
    | some _ => ["Error loading .env file"]
    | none => []
  match w.flagParse with
  | Except.error status => ⟨stdout0, status, w.store⟩
  | Except.ok flags =>
    let lighthouseResultPath :=
      flagValue flags "lighthouse-result" (w.Getenv "LIGHTHOUSE_RESULT_PATH")
    let spreadsheetId := flagValue flags "spreadsheet-id" (w.Getenv "SPREADSHEET_ID")
    let sheetName := flagValue flags "sheet-name" (w.Getenv "SHEET_NAME")
    let stdout1 := stdout0 ++ ["lighthouse-result: " ++ lighthouseResultPath,
      "spreadsheet-id: " ++ spreadsheetId, "sheet-name: " ++ sheetName]
    ⟨stdout1, 0, w.store⟩

/-! ## The column schema -/

/-- The columns of the row schema, by the names the specification gives
them. -/
inductive Column where
  | project | timestamp | branch | commit_message | tags | commit_id | uncommitted_changes
  | performance_score | lcp_score | cls_score | tbt_score | fcp_score | si_score
  | lcp_value | cls_value | tbt_value | fcp_value | fmp_value | si_value | ttfb_value
  | tti_value
  deriving DecidableEq, Repr

/-- The schema order of the columns. -/
def schema : List Column :=
  [Column.project, Column.timestamp, Column.branch, Column.commit_message, Column.tags,
    Column.commit_id, Column.uncommitted_changes, Column.performance_score, Column.lcp_score,
    Column.cls_score, Column.tbt_score, Column.fcp_score, Column.si_score, Column.lcp_value,
    Column.cls_value, Column.tbt_value, Column.fcp_value, Column.fmp_value, Column.si_value,
    Column.ttfb_value, Column.tti_value]

/-- The label by which the header row of the program names a column. -/
def Column.label : Column → String
  | Column.project => "プロジェクト"
  | Column.timestamp => "時刻"
  | Column.branch => "ブランチ"
  | Column.commit_message => "コミットメッセージ"
  | Column.tags => "タグ"
  | Column.commit_id => "コミットID"
  | Column.uncommitted_changes => "未コミットの変更"
  | Column.performance_score => "パフォーマンススコア"
  | Column.lcp_score => "LCPスコア"
  | Column.cls_score => "CLSスコア"
  | Column.tbt_score => "TBTスコア"
  | Column.fcp_score => "FCPスコア"
  | Column.si_score => "SIスコア"
  | Column.lcp_value => "LCP"
  | Column.cls_value => "CLS"
  | Column.tbt_value => "TBT"
  | Column.fcp_value => "FCP"
  | Column.fmp_value => "FMP"
  | Column.si_value => "SI"
  | Column.ttfb_value => "TTFB"
  | Column.tti_value => "TTI"

/-- The quantity a column is specified to hold, for the given project name,
time, repository state and report: texts as they are, the uncommitted
changes flag as `Y` or `N`, scores times 100, values unchanged. -/
def Column.quantity (project : String) (now : Time) (gitStatus : GitStatus)
    (report : LighthouseResult) : Column → Cell
  | Column.project => Cell.str project
  | Column.timestamp => Cell.str now.Format
  | Column.branch => Cell.str gitStatus.Branch
  | Column.commit_message => Cell.str gitStatus.LastCommitMessage
  | Column.tags => Cell.str (Join gitStatus.Tags)
  | Column.commit_id => Cell.str gitStatus.CommitId
  | Column.uncommitted_changes => Cell.str (if gitStatus.HasUncommittedChanges then "Y" else "N")
  | Column.performance_score => Cell.num (100 * report.Categories.Performance.Score)
  | Column.lcp_score => Cell.num (100 * (report.Audits.get MetricKey.LCP).Score)
  | Column.cls_score => Cell.num (100 * (report.Audits.get MetricKey.CLS).Score)
  | Column.tbt_score => Cell.num (100 * (report.Audits.get MetricKey.TBT).Score)
  | Column.fcp_score => Cell.num (100 * (report.Audits.get MetricKey.FCP).Score)
  | Column.si_score => Cell.num (100 * (report.Audits.get MetricKey.SI).Score)
  | Column.lcp_value => Cell.num (report.Audits.get MetricKey.LCP).Value
  | Column.cls_value => Cell.num (report.Audits.get MetricKey.CLS).Value
  | Column.tbt_value => Cell.num (report.Audits.get MetricKey.TBT).Value
  | Column.fcp_value => Cell.num (report.Audits.get MetricKey.FCP).Value
  | Column.fmp_value => Cell.num (report.Audits.get MetricKey.FMP).Value
  | Column.si_value => Cell.num (report.Audits.get MetricKey.SI).Value
  | Column.ttfb_value => Cell.num (report.Audits.get MetricKey.TTFB).Value
  | Column.tti_value => Cell.num (report.Audits.get MetricKey.TTI).Value

/-! ## A sample run -/

/-- The bytes of the sample report file; `sampleScan` reads them as
`sampleReport`. -/
def sampleBytes : String := "sample report"

/-- A scan that knows the sample report file. -/
def sampleScan (bytes : String) : Option JSON :=
  if bytes = sampleBytes then some sampleReport else none

/-- A file system that holds the sample report at the path
`./example/lighthouse.report.json` and nothing else. -/
def sampleFs : FileSystem :=
  ⟨fun path =>
    if path = "./example/lighthouse.report.json" then Except.ok ⟨Except.ok sampleBytes⟩
    else Except.error (Error.env "no such file or directory")⟩

/-- A git repository on branch `main` at commit `abc123`, with no tags and
no uncommitted changes. -/
def sampleGit (args : List String) : Except Error String :=
  if args = ["rev-parse", "HEAD"] then Except.ok "abc123\n"
  else if args = ["log", "-1", "--pretty=%B"] then Except.ok "first commit\n\n"
  else if args = ["rev-parse", "--abbrev-ref", "HEAD"] then Except.ok "main\n"
  else if args = ["tag", "--points-at", "HEAD"] then Except.ok ""
  else if args = ["status", "--porcelain"] then Except.ok ""
  else Except.error (Error.env "exit status 1")

/-- The repository state `GetGitStatus` reads from `sampleGit`. -/
def sampleGitStatus : GitStatus := ⟨"abc123", "first commit", "main", [""], false⟩

/-- The time 2024-05-01 10:00:00. -/
def sampleNow : Time := ⟨2024, 5, 1, 10, 0, 0⟩

/-- A run in which the report loads and every call of the sink succeeds: the
settings come from the environment, no flag is given, the working directory
is `/work/demo` and the sheet is empty. -/
def sampleWorld : World where
  dotenv := none
  Getenv := fun name =>
    if name = "LIGHTHOUSE_RESULT_PATH" then "./example/lighthouse.report.json"
    else if name = "SPREADSHEET_ID" then "sheet-id"
    else if name = "SHEET_NAME" then "Sheet1"
    else ""
  flagParse := Except.ok (fun _ => none)
  scan := sampleScan
  fs := sampleFs
  git := sampleGit
  Getwd := Except.ok "/work/demo"
  Now := sampleNow
  sheets := okApi
  store := ⟨[], []⟩

/-- The data row of the sample run. -/
def sampleRow : Row :=
  [Cell.str "demo", Cell.str "2024-05-01 10:00:00", Cell.str "main", Cell.str "first commit",
    Cell.str "", Cell.str "abc123", Cell.str "N",
    Cell.num 87, Cell.num 90, Cell.num 100, Cell.num 80, Cell.num 90, Cell.num 70,
    Cell.num 2400, Cell.num (1 / 100), Cell.num 150, Cell.num 1200, Cell.num 1300,
    Cell.num 2000, Cell.num 100, Cell.num 3000]
/-! # Theorems -/

/-! ## The append to the sheet -/

theorem columnA_length (rows : Sink) : (columnA rows).length = rows.length := by
  simp [columnA]

theorem columnA_length_eq_zero (rows : Sink) : (columnA rows).length = 0 ↔ rows = [] := by
  simp [columnA]

/-- The sheet after a call that returned no error. -/
theorem AppendSpreadSheet_rows_of_ok (api : SheetsApi) (st : Store)
    (spreadsheetId sheetName : String) (headerValues rowValues : Row)
    (hok : (AppendSpreadSheet api st spreadsheetId sheetName headerValues rowValues).err = none) :
    (AppendSpreadSheet api st spreadsheetId sheetName headerValues rowValues).store.rows =
      if st.rows = [] then [headerValues, rowValues] else st.rows ++ [rowValues] := by
  obtain ⟨c, s, g, h, d⟩ := api
  obtain ⟨rows, calls⟩ := st
  cases c <;> cases s <;> cases g <;> cases h <;> cases d <;>
    cases rows <;>
    simp_all [AppendSpreadSheet, valuesGet, valuesAppend, columnA]

/-- C1. When `AppendSpreadSheet` returns without error, a sheet that was
empty before the call holds exactly the header row followed by the data row,
and a sheet that was not empty holds its former rows, unchanged and in the
same order, followed by exactly the one new data row. -/
theorem AppendSpreadSheet_success (api : SheetsApi) (st : Store)
    (spreadsheetId sheetName : String) (headerValues rowValues : Row)
    (hok : (AppendSpreadSheet api st spreadsheetId sheetName headerValues rowValues).err = none) :
    (st.rows = [] →
      (AppendSpreadSheet api st spreadsheetId sheetName headerValues rowValues).store.rows
        = [headerValues, rowValues]) ∧
    (st.rows ≠ [] →
      (AppendSpreadSheet api st spreadsheetId sheetName headerValues rowValues).store.rows
        = st.rows ++ [rowValues]) := by
  have h := AppendSpreadSheet_rows_of_ok api st spreadsheetId sheetName headerValues rowValues hok
  constructor
  · intro he
    rw [h, if_pos he]
  · intro hne
    rw [h, if_neg hne]

/-- Witness of C1: one successful call against the empty sheet. -/
theorem AppendSpreadSheet_success_witness :
    (AppendSpreadSheet okApi ⟨[], []⟩ "id" "Sheet1" [Cell.str "h"] [Cell.num 1]).err = none ∧
    (AppendSpreadSheet okApi ⟨[], []⟩ "id" "Sheet1" [Cell.str "h"] [Cell.num 1]).store.rows
      = [[Cell.str "h"], [Cell.num 1]] :=
  ⟨rfl, (AppendSpreadSheet_success okApi ⟨[], []⟩ "id" "Sheet1" [Cell.str "h"] [Cell.num 1]
    rfl).1 rfl⟩

/-- Successive successful calls, from any sheet: the header is written by
the first call when the sheet is empty, and never otherwise. -/
theorem successiveAppends_rows (spreadsheetId sheetName : String) (headerValues : Row)
    (runs : List (SheetsApi × Row)) (st : Store)
    (hok : ∀ e ∈ (successiveAppends spreadsheetId sheetName headerValues st runs).2, e = none) :
    (successiveAppends spreadsheetId sheetName headerValues st runs).1.rows =
      (if st.rows = [] ∧ runs ≠ [] then [headerValues] else st.rows)
        ++ runs.map Prod.snd := by
  induction runs generalizing st with
  | nil => simp [successiveAppends]
  | cons run rest ih =>
    obtain ⟨api, rowValues⟩ := run
    simp only [successiveAppends, List.mem_cons, forall_eq_or_imp] at hok
    obtain ⟨h1, hrest⟩ := hok
    have hrows := AppendSpreadSheet_rows_of_ok api st spreadsheetId sheetName
      headerValues rowValues h1
    have hne : (AppendSpreadSheet api st spreadsheetId sheetName headerValues
        rowValues).store.rows ≠ [] := by
      rw [hrows]
      split <;> simp
    simp only [successiveAppends]
    rw [ih _ hrest, hrows]
    by_cases he : st.rows = []
    · simp [he, hne, hrows]
    · simp [he, hne, hrows]

/-- C3. For every n ≥ 1 and every sequence of n data rows, n successive
successful calls of `AppendSpreadSheet` with the same header, starting from
the empty sheet, leave the sheet holding exactly one header row followed by
the n data rows in call order; in particular the second call, against the
now non-empty sheet, writes no second header. -/
theorem successiveAppends_header_once (spreadsheetId sheetName : String) (headerValues : Row)
    (runs : List (SheetsApi × Row)) (hn : 1 ≤ runs.length)
    (hok : ∀ e ∈ (successiveAppends spreadsheetId sheetName headerValues ⟨[], []⟩ runs).2,
      e = none) :
    (successiveAppends spreadsheetId sheetName headerValues ⟨[], []⟩ runs).1.rows
      = headerValues :: runs.map Prod.snd := by
  have hne : runs ≠ [] := by
    intro h
    simp [h] at hn
  rw [successiveAppends_rows spreadsheetId sheetName headerValues runs ⟨[], []⟩ hok]
  simp [hne]

/-- Witness of C3: two successful calls from the empty sheet leave one
header row followed by the two data rows. -/
theorem successiveAppends_header_once_witness :
    (successiveAppends "id" "Sheet1" [Cell.str "h"] ⟨[], []⟩
        [(okApi, [Cell.num 1]), (okApi, [Cell.num 2])]).1.rows
      = [[Cell.str "h"], [Cell.num 1], [Cell.num 2]] :=
  successiveAppends_header_once "id" "Sheet1" [Cell.str "h"]
    [(okApi, [Cell.num 1]), (okApi, [Cell.num 2])] (by decide)
    (by
      intro e he
      simp [successiveAppends, AppendSpreadSheet, valuesGet, valuesAppend, columnA, okApi] at he
      exact he)

/-- C8. `AppendSpreadSheet` stops at the first sink call that fails, returns
that call's error and sends no further request and no retry; what earlier
successful calls wrote is kept.  Read fails: only the read was sent, the
sheet is unchanged.  Empty sheet, header append fails: read and header
append were sent, the sheet is unchanged.  Empty sheet, header append
succeeds, data append fails: the three requests were sent once each and the
sheet holds exactly the header row.  Non-empty sheet, data append fails:
read and data append were sent, the sheet is unchanged. -/
theorem AppendSpreadSheet_first_failure (spreadsheetId sheetName : String)
    (headerValues rowValues : Row) (calls : List SinkCall) (err : Error)
    (h d : Option Error) (r : Row) (rows : Sink) :
    (∀ sheet : Sink,
      AppendSpreadSheet ⟨none, none, some err, h, d⟩ ⟨sheet, calls⟩ spreadsheetId sheetName
          headerValues rowValues
        = ⟨some err, ⟨sheet, calls ++ [SinkCall.get spreadsheetId (sheetName ++ "!A:A")]⟩⟩) ∧
    AppendSpreadSheet ⟨none, none, none, some err, d⟩ ⟨[], calls⟩ spreadsheetId sheetName
        headerValues rowValues
      = ⟨some err, ⟨[], calls ++ [SinkCall.get spreadsheetId (sheetName ++ "!A:A"),
          SinkCall.append spreadsheetId (sheetName ++ "!A:A") [headerValues]]⟩⟩ ∧
    AppendSpreadSheet ⟨none, none, none, none, some err⟩ ⟨[], calls⟩ spreadsheetId sheetName
        headerValues rowValues
      = ⟨some err, ⟨[headerValues], calls ++ [SinkCall.get spreadsheetId (sheetName ++ "!A:A"),
          SinkCall.append spreadsheetId (sheetName ++ "!A:A") [headerValues],
          SinkCall.append spreadsheetId (sheetName ++ "!A:A") [rowValues]]⟩⟩ ∧
    AppendSpreadSheet ⟨none, none, none, h, some err⟩ ⟨r :: rows, calls⟩ spreadsheetId sheetName
        headerValues rowValues
      = ⟨some err, ⟨r :: rows, calls ++ [SinkCall.get spreadsheetId (sheetName ++ "!A:A"),
          SinkCall.append spreadsheetId (sheetName ++ "!A:A") [rowValues]]⟩⟩ := by
  refine ⟨?_, ?_, ?_, ?_⟩
  · intro sheet
    simp [AppendSpreadSheet, valuesGet]
  · simp [AppendSpreadSheet, valuesGet, valuesAppend, columnA]
  · simp [AppendSpreadSheet, valuesGet, valuesAppend, columnA]
  · simp [AppendSpreadSheet, valuesGet, valuesAppend, columnA]


/-! ## Decoding a document that lacks an audit entry or a field -/

theorem saveError_eq_none {saved err : Option Error} (h : saveError saved err = none) :
    saved = none ∧ err = none := by
  cases saved <;> simp_all [saveError]

/-- A saved error is never cleared. -/
theorem foldl_decodeMember_saved {α : Type} (field : α → String × JSON → α × Option Error)
    (members : List (String × JSON)) (acc : α × Option Error)
    (hok : (members.foldl (decodeMember field) acc).2 = none) : acc.2 = none := by
  induction members generalizing acc with
  | nil => simpa using hok
  | cons kv rest ih =>
    simp only [List.foldl_cons] at hok
    exact (saveError_eq_none (ih _ hok)).1

/-- The decoder run over the members of an object, compared with the run
over an edited list of members: when the run over the original list saves no
error and each step keeps the two structs related, the run over the edited
list saves no error either and ends in a related struct. -/
theorem foldl_decodeMember_edit {α : Type} (field : α → String × JSON → α × Option Error)
    (g : String × JSON → Option (String × JSON)) (R : α → α → Prop)
    (hstep : ∀ a1 a2 kv, R a1 a2 → (field a1 kv).2 = none →
      match g kv with
      | none => R (field a1 kv).1 a2
      | some kv2 => R (field a1 kv).1 (field a2 kv2).1 ∧ (field a2 kv2).2 = none)
    (members : List (String × JSON)) (acc1 acc2 : α × Option Error)
    (hR : R acc1.1 acc2.1) (he : acc2.2 = none)
    (hok : (members.foldl (decodeMember field) acc1).2 = none) :
    R (members.foldl (decodeMember field) acc1).1
        ((members.filterMap g).foldl (decodeMember field) acc2).1 ∧
      ((members.filterMap g).foldl (decodeMember field) acc2).2 = none := by
  induction members generalizing acc1 acc2 with
  | nil => exact ⟨hR, he⟩
  | cons kv rest ih =>
    simp only [List.foldl_cons] at hok
    have hs := saveError_eq_none (foldl_decodeMember_saved field rest _ hok)
    have h := hstep acc1.1 acc2.1 kv hR hs.2
    cases hg : g kv with
    | none =>
      rw [hg] at h
      simp only [List.filterMap_cons, hg, List.foldl_cons]
      exact ih (decodeMember field acc1 kv) acc2 h he hok
    | some kv2 =>
      rw [hg] at h
      simp only [List.filterMap_cons, hg, List.foldl_cons]
      refine ih (decodeMember field acc1 kv) (decodeMember field acc2 kv2) h.1 ?_ hok
      simp [decodeMember, he, h.2, saveError]

/-- The struct decoder on an edited value. -/
theorem decodeStruct_edit {α : Type} (typeName : String)
    (field : α → String × JSON → α × Option Error)
    (g : String × JSON → Option (String × JSON)) (R : α → α → Prop)
    (hstep : ∀ a1 a2 kv, R a1 a2 → (field a1 kv).2 = none →
      match g kv with
      | none => R (field a1 kv).1 a2
      | some kv2 => R (field a1 kv).1 (field a2 kv2).1 ∧ (field a2 kv2).2 = none)
    (j : JSON) (old1 old2 : α) (hR : R old1 old2)
    (hok : (decodeStruct typeName field j old1).2 = none) :
    R (decodeStruct typeName field j old1).1
        (decodeStruct typeName field (j.editMembers g) old2).1 ∧
      (decodeStruct typeName field (j.editMembers g) old2).2 = none := by
  cases j with
  | obj members =>
    simp only [decodeStruct, JSON.editMembers] at hok ⊢
    exact foldl_decodeMember_edit field g R hstep members (old1, none) (old2, none) hR rfl hok
  | null => exact ⟨hR, rfl⟩
  | bool b => simp [decodeStruct] at hok
  | num q => simp [decodeStruct] at hok
  | str s => simp [decodeStruct] at hok
  | arr items => simp [decodeStruct] at hok


theorem keyMatches_iff (key fieldName : String) :
    keyMatches key fieldName = true ↔ foldName key = foldName fieldName := by
  simp [keyMatches]

/-- A key selects at most one of the two fields of an audit entry. -/
theorem not_score_of_numericValue (key : String) (h : keyMatches key "numericValue" = true) :
    keyMatches key "score" = false := by
  rw [keyMatches_iff] at h
  rw [Bool.eq_false_iff]
  intro h2
  rw [keyMatches_iff, h] at h2
  revert h2
  decide

/-- Decoding an audit entry that lacks `numericValue`. -/
theorem decodeMetric_dropValue (j : JSON) (old : Metric) (hok : (decodeMetric j old).2 = none) :
    decodeMetric (j.dropField "numericValue") (old.without Missing.numericValue)
      = ((decodeMetric j old).1.without Missing.numericValue, none) := by
  have h := decodeStruct_edit "Metric" Metric.field
    (fun kv => if keyMatches kv.1 "numericValue" then none else some kv)
    (fun m1 m2 => m2 = m1.without Missing.numericValue)
    (by
      intro a1 a2 kv hR hnone
      subst hR
      by_cases hk : keyMatches kv.1 "numericValue" = true
      · simp [hk, Metric.field, Metric.without]
      · simp only [Bool.not_eq_true] at hk
        by_cases hs : keyMatches kv.1 "score" = true
        · simp [hk, hs, Metric.field, Metric.without] at hnone ⊢
          exact hnone
        · simp [hk, hs, Metric.field, Metric.without])
    j old (old.without Missing.numericValue) rfl hok
  exact Prod.ext h.1 h.2

/-- Decoding an audit entry that lacks `score`. -/
theorem decodeMetric_dropScore (j : JSON) (old : Metric) (hok : (decodeMetric j old).2 = none) :
    decodeMetric (j.dropField "score") (old.without Missing.score)
      = ((decodeMetric j old).1.without Missing.score, none) := by
  have h := decodeStruct_edit "Metric" Metric.field
    (fun kv => if keyMatches kv.1 "score" then none else some kv)
    (fun m1 m2 => m2 = m1.without Missing.score)
    (by
      intro a1 a2 kv hR hnone
      subst hR
      by_cases hk : keyMatches kv.1 "numericValue" = true
      · have hs := not_score_of_numericValue kv.1 hk
        simp [hk, hs, Metric.field, Metric.without] at hnone ⊢
        exact hnone
      · simp only [Bool.not_eq_true] at hk
        by_cases hs : keyMatches kv.1 "score" = true
        · simp [hk, hs, Metric.field, Metric.without]
        · simp [hk, hs, Metric.field, Metric.without])
    j old (old.without Missing.score) rfl hok
  exact Prod.ext h.1 h.2


theorem Audits.get_set_self (a : Audits) (k : MetricKey) (m : Metric) :
    (a.set k m).get k = m := by
  cases k <;> rfl

theorem Audits.get_set_ne (a : Audits) (k k2 : MetricKey) (m : Metric) (h : k2 ≠ k) :
    (a.set k m).get k2 = a.get k2 := by
  cases k <;> cases k2 <;> first | rfl | exact absurd rfl h

theorem Audits.set_set (a : Audits) (k : MetricKey) (m m2 : Metric) :
    (a.set k m).set k m2 = a.set k m2 := by
  cases k <;> rfl

theorem Audits.set_comm (a : Audits) (k k2 : MetricKey) (m m2 : Metric) (h : k2 ≠ k) :
    (a.set k m).set k2 m2 = (a.set k2 m2).set k m := by
  cases k <;> cases k2 <;> first | rfl | exact absurd rfl h

/-- Decoding an `audits` object that lacks a part of the audit entry `k`. -/
theorem decodeAudits_without (k : MetricKey) (w : Missing) (j : JSON) (old : Audits)
    (hok : (decodeStruct "Audits" Audits.field j old).2 = none) :
    decodeStruct "Audits" Audits.field (j.auditsWithout k w)
        (old.set k ((old.get k).without w))
      = ((decodeStruct "Audits" Audits.field j old).1.set k
          (((decodeStruct "Audits" Audits.field j old).1.get k).without w), none) := by
  have h := decodeStruct_edit "Audits" Audits.field
    (fun kv =>
      if Audits.lookup kv.1 = some k then
        match w with
        | Missing.entry => none
        | Missing.numericValue => some (kv.1, kv.2.dropField "numericValue")
        | Missing.score => some (kv.1, kv.2.dropField "score")
      else some kv)
    (fun a1 a2 => a2 = a1.set k ((a1.get k).without w))
    (by
      intro a1 a2 kv hR hnone
      subst hR
      cases hl : Audits.lookup kv.1 with
      | none => simp [hl, Audits.field]
      | some k2 =>
        by_cases hk : k2 = k
        · subst hk
          simp only [Audits.field, hl] at hnone
          cases w with
          | entry =>
            simp [hl, Audits.field, Audits.set_set, Audits.get_set_self, Metric.without]
          | numericValue =>
            simp [hl, Audits.field, Audits.set_set, Audits.get_set_self,
              decodeMetric_dropValue _ _ hnone]
          | score =>
            simp [hl, Audits.field, Audits.set_set, Audits.get_set_self,
              decodeMetric_dropScore _ _ hnone]
        · simp only [Audits.field, hl] at hnone
          simp [hl, hk, Audits.field, Audits.get_set_ne _ _ _ _ hk,
            Audits.get_set_ne _ _ _ _ (Ne.symm hk), Audits.set_comm _ _ _ _ _ hk, hnone])
    j old (old.set k ((old.get k).without w)) rfl hok
  exact Prod.ext h.1 h.2

/-- No key selects both `Categories` and `audits`. -/
theorem not_audits_of_Categories (key : String) (h : keyMatches key "Categories" = true) :
    keyMatches key "audits" = false := by
  rw [keyMatches_iff] at h
  rw [Bool.eq_false_iff]
  intro h2
  rw [keyMatches_iff, h] at h2
  revert h2
  decide

/-- Decoding a document that lacks a part of the audit entry `k`, into any
struct. -/
theorem decodeResult_without (k : MetricKey) (w : Missing) (doc : JSON) (old : LighthouseResult)
    (hok : (decodeStruct "LighthouseResult" LighthouseResult.field doc old).2 = none) :
    decodeStruct "LighthouseResult" LighthouseResult.field (doc.without k w) (old.without k w)
      = ((decodeStruct "LighthouseResult" LighthouseResult.field doc old).1.without k w,
          none) := by
  have h := decodeStruct_edit "LighthouseResult" LighthouseResult.field
    (fun kv =>
      if keyMatches kv.1 "audits" then some (kv.1, kv.2.auditsWithout k w) else some kv)
    (fun r1 r2 => r2 = r1.without k w)
    (by
      intro r1 r2 kv hR hnone
      subst hR
      by_cases hc : keyMatches kv.1 "Categories" = true
      · have ha := not_audits_of_Categories kv.1 hc
        simp only [LighthouseResult.field, hc, if_true] at hnone
        simp [hc, ha, LighthouseResult.field, LighthouseResult.without, hnone]
      · simp only [Bool.not_eq_true] at hc
        by_cases ha : keyMatches kv.1 "audits" = true
        · simp only [LighthouseResult.field, hc, ha, if_true] at hnone
          simp at hnone
          simp [hc, ha, LighthouseResult.field, LighthouseResult.without,
            decodeAudits_without k w _ _ hnone]
        · simp [hc, ha, LighthouseResult.field, LighthouseResult.without])
    doc old (old.without k w) rfl hok
  exact Prod.ext h.1 h.2

theorem LighthouseResult.zero_without (k : MetricKey) (w : Missing) :
    LighthouseResult.zero.without k w = LighthouseResult.zero := by
  cases k <;> cases w <;> rfl

/-- C4, as the code has it.  A report document that lacks an audit entry, or
the `numericValue` or the `score` of an entry, is not rejected for that:
whenever a document decodes to a result, the document with that part removed
decodes as well, to the same result with zero in the place of the part that
is missing. -/
theorem decodeDocument_without (k : MetricKey) (w : Missing) (doc : JSON)
    (result : LighthouseResult) (hok : decodeDocument doc = Except.ok result) :
    decodeDocument (doc.without k w) = Except.ok (result.without k w) := by
  unfold decodeDocument at hok ⊢
  have h := decodeResult_without k w doc LighthouseResult.zero
  rw [LighthouseResult.zero_without] at h
  cases hd : decodeStruct "LighthouseResult" LighthouseResult.field doc LighthouseResult.zero
    with
  | mk r e =>
    rw [hd] at hok h
    cases e with
    | some err => simp at hok
    | none =>
      simp only [Except.ok.injEq] at hok
      subst hok
      rw [h rfl]

/-- Witness of C4: the complete sample report decodes, and without its
`interactive` entry it decodes to the same result with value and score of
`interactive` zero. -/
theorem decodeDocument_without_witness :
    decodeDocument sampleReport = Except.ok sampleResult ∧
    decodeDocument (sampleReport.without MetricKey.TTI Missing.entry)
      = Except.ok (sampleResult.without MetricKey.TTI Missing.entry) :=
  ⟨rfl, decodeDocument_without MetricKey.TTI Missing.entry sampleReport sampleResult rfl⟩

/-- C4 fails as stated: the document `reportWithoutTTI` decodes structurally
and lacks the required `interactive` entry, and decoding it returns no error
but a result in which the value and the score of `interactive` are zero; so
does `ReadLighthouseResult` when the report file holds that document. -/
theorem decodeDocument_missing_entry_ok :
    decodeDocument reportWithoutTTI = Except.ok
      ⟨⟨⟨87 / 100, []⟩⟩,
        ⟨⟨2400, 9 / 10⟩, ⟨1 / 100, 1⟩, ⟨150, 8 / 10⟩, ⟨1200, 9 / 10⟩,
          ⟨1300, 9 / 10⟩, ⟨2000, 7 / 10⟩, ⟨100, 1⟩, ⟨0, 0⟩⟩⟩ ∧
    (∀ err, decodeDocument reportWithoutTTI ≠ Except.error err) ∧
    ReadLighthouseResult (fun _ => some reportWithoutTTI)
        ⟨fun _ => Except.ok ⟨Except.ok "report"⟩⟩ "report.json"
      = Except.ok
        ⟨⟨⟨87 / 100, []⟩⟩,
          ⟨⟨2400, 9 / 10⟩, ⟨1 / 100, 1⟩, ⟨150, 8 / 10⟩, ⟨1200, 9 / 10⟩,
            ⟨1300, 9 / 10⟩, ⟨2000, 7 / 10⟩, ⟨100, 1⟩, ⟨0, 0⟩⟩⟩ :=
  ⟨rfl, fun _ h => Except.noConfusion h, rfl⟩


/-! ## The report file -/

/-- C10. `ReadLighthouseResult` does not depend on its argument `filePath`:
for every file system and every two paths the two calls return the same
result or the same error, namely what opening, reading and decoding the
fixed file `./example/lighthouse.report.json` gives. -/
theorem ReadLighthouseResult_ignores_filePath (scan : String → Option JSON) (fs : FileSystem)
    (p q : String) :
    ReadLighthouseResult scan fs p = ReadLighthouseResult scan fs q ∧
    ReadLighthouseResult scan fs p =
      (fs.Open "./example/lighthouse.report.json").bind
        (fun jsonFile => jsonFile.ReadAll.bind (Unmarshal scan)) := by
  refine ⟨rfl, ?_⟩
  unfold ReadLighthouseResult
  cases fs.Open "./example/lighthouse.report.json" with
  | error err => rfl
  | ok jsonFile =>
    cases h : jsonFile.ReadAll with
    | error err => simp [Except.bind, h]
    | ok jsonBuffer => simp [Except.bind, h]

/-! ## The git repository -/

/-- The status `GetGitStatus` returns, field by field. -/
theorem GetGitStatus_status (git : List String → Except Error String) :
    (GetGitStatus git).status = some
      ⟨(match git ["rev-parse", "HEAD"] with
          | Except.ok out => TrimSpace out
          | Except.error _ => ""),
        (match git ["log", "-1", "--pretty=%B"] with
          | Except.ok out => TrimSpace out
          | Except.error _ => ""),
        (match git ["rev-parse", "--abbrev-ref", "HEAD"] with
          | Except.ok out => TrimSpace out
          | Except.error _ => ""),
        (match git ["tag", "--points-at", "HEAD"] with
          | Except.ok out => Split (TrimSpace out)
          | Except.error _ => []),
        (match git ["status", "--porcelain"] with
          | Except.ok out => TrimSpace out != ""
          | Except.error _ => false)⟩ := by
  simp only [GetGitStatus, executeGitCommand, GitStatus.zero]
  generalize git ["rev-parse", "HEAD"] = q1
  generalize git ["log", "-1", "--pretty=%B"] = q2
  generalize git ["rev-parse", "--abbrev-ref", "HEAD"] = q3
  generalize git ["tag", "--points-at", "HEAD"] = q4
  generalize git ["status", "--porcelain"] = q5
  cases q1 <;> cases q2 <;> cases q3 <;> cases q4 <;> cases q5 <;> rfl

/-- C9. Whatever each of the five git queries returns, `GetGitStatus`
returns a non-nil status and a nil error; each field holds its empty value
(empty string, no tags, false) when its query failed, and the value derived
from the output of its own query when that query succeeded: the trimmed
output for commit id, commit message and branch, the lines of the trimmed
output for the tags, and whether the trimmed output is non-empty for the
uncommitted changes. -/
theorem GetGitStatus_fields (git : List String → Except Error String) :
    (GetGitStatus git).err = none ∧
    ∃ status, (GetGitStatus git).status = some status ∧
      status.CommitId =
        (match git ["rev-parse", "HEAD"] with
          | Except.ok out => TrimSpace out
          | Except.error _ => "") ∧
      status.LastCommitMessage =
        (match git ["log", "-1", "--pretty=%B"] with
          | Except.ok out => TrimSpace out
          | Except.error _ => "") ∧
      status.Branch =
        (match git ["rev-parse", "--abbrev-ref", "HEAD"] with
          | Except.ok out => TrimSpace out
          | Except.error _ => "") ∧
      status.Tags =
        (match git ["tag", "--points-at", "HEAD"] with
          | Except.ok out => Split (TrimSpace out)
          | Except.error _ => []) ∧
      status.HasUncommittedChanges =
        (match git ["status", "--porcelain"] with
          | Except.ok out => TrimSpace out != ""
          | Except.error _ => false) :=
  ⟨rfl, _, GetGitStatus_status git, rfl, rfl, rfl, rfl, rfl⟩

/-! ## The row -/

/-- C5 fails as stated: the header row has 21 cells, not 20, and so has the
data row of the sample run. -/
theorem row_length_ne_20 :
    headerValues.length ≠ 20 ∧
    (rowValues "demo" sampleNow sampleGitStatus sampleResult).length ≠ 20 := by
  constructor <;> simp [headerValues, rowValues]

/-- C5, as the code has it.  For every project name, time, repository state
and report, the data row composed in `main` has exactly 21 cells, and the
header row has exactly 21 cells. -/
theorem row_length_21 (project : String) (now : Time) (gitStatus : GitStatus)
    (lighthouseResult : LighthouseResult) :
    (rowValues project now gitStatus lighthouseResult).length = 21 ∧
    headerValues.length = 21 := by
  constructor <;> simp [headerValues, rowValues]

theorem headerValues_eq_schema : headerValues = schema.map (fun c => Cell.str c.label) := by
  rfl

theorem rowValues_eq_schema (project : String) (now : Time) (gitStatus : GitStatus)
    (lighthouseResult : LighthouseResult) :
    rowValues project now gitStatus lighthouseResult
      = schema.map (Column.quantity project now gitStatus lighthouseResult) := by
  simp [rowValues, schema, Column.quantity, Audits.get, mul_comm]

/-- C6. For every project name, time, repository state and report, the data
row has as many cells as the header row, and at every position the header
cell is the label of the column the schema has at that position and the data
cell holds the quantity of that column, the schema order being project,
timestamp, branch, commit_message, tags, commit_id, uncommitted_changes,
performance_score, lcp_score, cls_score, tbt_score, fcp_score, si_score,
lcp_value, cls_value, tbt_value, fcp_value, fmp_value, si_value, ttfb_value,
tti_value. -/
theorem row_matches_header (project : String) (now : Time) (gitStatus : GitStatus)
    (lighthouseResult : LighthouseResult) :
    (rowValues project now gitStatus lighthouseResult).length = headerValues.length ∧
    ∀ i : Nat,
      headerValues[i]? = schema[i]?.map (fun c => Cell.str c.label) ∧
      (rowValues project now gitStatus lighthouseResult)[i]?
        = schema[i]?.map (Column.quantity project now gitStatus lighthouseResult) := by
  refine ⟨by simp [headerValues, rowValues], fun i => ⟨?_, ?_⟩⟩
  · rw [headerValues_eq_schema, List.getElem?_map]
  · rw [rowValues_eq_schema, List.getElem?_map]

/-- C7. In the composed row the performance_score cell is 100 times
`categories.performance.score`, the lcp, cls, tbt, fcp and si score cells
are 100 times the score of that audit, the eight value cells are the
`numericValue` of their audit unchanged, and the uncommitted_changes cell is
`Y` when `HasUncommittedChanges` is true and `N` otherwise.  For a report
with performance score 0.87, lcp score 0.9 and lcp value 2400 and a
repository without uncommitted changes the cells are 87, 90, 2400 and `N`. -/
theorem rowValues_cells (project : String) (now : Time) (gitStatus : GitStatus)
    (lighthouseResult : LighthouseResult) :
    ((rowValues project now gitStatus lighthouseResult)[6]?
        = some (Cell.str (if gitStatus.HasUncommittedChanges = true then "Y" else "N")) ∧
      (rowValues project now gitStatus lighthouseResult)[7]?
        = some (Cell.num (100 * lighthouseResult.Categories.Performance.Score)) ∧
      (rowValues project now gitStatus lighthouseResult)[8]?
        = some (Cell.num (100 * lighthouseResult.Audits.LCP.Score)) ∧
      (rowValues project now gitStatus lighthouseResult)[9]?
        = some (Cell.num (100 * lighthouseResult.Audits.CLS.Score)) ∧
      (rowValues project now gitStatus lighthouseResult)[10]?
        = some (Cell.num (100 * lighthouseResult.Audits.TBT.Score)) ∧
      (rowValues project now gitStatus lighthouseResult)[11]?
        = some (Cell.num (100 * lighthouseResult.Audits.FCP.Score)) ∧
      (rowValues project now gitStatus lighthouseResult)[12]?
        = some (Cell.num (100 * lighthouseResult.Audits.SI.Score)) ∧
      (rowValues project now gitStatus lighthouseResult)[13]?
        = some (Cell.num lighthouseResult.Audits.LCP.Value) ∧
      (rowValues project now gitStatus lighthouseResult)[14]?
        = some (Cell.num lighthouseResult.Audits.CLS.Value) ∧
      (rowValues project now gitStatus lighthouseResult)[15]?
        = some (Cell.num lighthouseResult.Audits.TBT.Value) ∧
      (rowValues project now gitStatus lighthouseResult)[16]?
        = some (Cell.num lighthouseResult.Audits.FCP.Value) ∧
      (rowValues project now gitStatus lighthouseResult)[17]?
        = some (Cell.num lighthouseResult.Audits.FMP.Value) ∧
      (rowValues project now gitStatus lighthouseResult)[18]?
        = some (Cell.num lighthouseResult.Audits.SI.Value) ∧
      (rowValues project now gitStatus lighthouseResult)[19]?
        = some (Cell.num lighthouseResult.Audits.TTFB.Value) ∧
      (rowValues project now gitStatus lighthouseResult)[20]?
        = some (Cell.num lighthouseResult.Audits.TTI.Value)) ∧
    ((rowValues "demo" sampleNow sampleGitStatus sampleResult)[7]? = some (Cell.num 87) ∧
      (rowValues "demo" sampleNow sampleGitStatus sampleResult)[8]? = some (Cell.num 90) ∧
      (rowValues "demo" sampleNow sampleGitStatus sampleResult)[13]? = some (Cell.num 2400) ∧
      (rowValues "demo" sampleNow sampleGitStatus sampleResult)[6]? = some (Cell.str "N")) := by
  refine ⟨?_, ?_⟩
  · simp [rowValues, mul_comm]
  · simp only [rowValues, sampleResult, sampleGitStatus]
    norm_num

/-! ## `main` -/

theorem rowValues_sample :
    rowValues "demo" sampleNow sampleGitStatus sampleResult = sampleRow := by
  have hf : sampleNow.Format = "2024-05-01 10:00:00" := by decide
  have hj : Join sampleGitStatus.Tags = "" := by decide
  simp only [rowValues, sampleRow, hf, hj]
  norm_num [sampleResult, sampleGitStatus]

/-- C2, where the code departs from the claim.  Every run of `main` ends at
the `return` of line 240: whatever the environment and the flags, the sheet
and the requests received by the service are as they were before the run.
In the sample run, in which the report loads and every call of the sink
would succeed, `main` exits with status 0, leaves the empty sheet empty and
sends no request, while the statements after the `return` would have left
the header row and one data row. -/
theorem main_returns_before_pipeline :
    (∀ w : World, (main w).store = w.store) ∧
    main sampleWorld
      = ⟨["lighthouse-result: ./example/lighthouse.report.json", "spreadsheet-id: sheet-id",
          "sheet-name: Sheet1"], 0, ⟨[], []⟩⟩ ∧
    (mainAfterReturn sampleWorld [] "./example/lighthouse.report.json" "sheet-id"
        "Sheet1").store.rows = [headerValues, sampleRow] := by
  refine ⟨?_, rfl, ?_⟩
  · intro w
    unfold main
    cases w.flagParse <;> rfl
  · have hr : ReadLighthouseResult sampleWorld.scan sampleWorld.fs
        "./example/lighthouse.report.json" = Except.ok sampleResult := rfl
    have hg : GetGitStatus sampleWorld.git = ⟨some sampleGitStatus, none, []⟩ := rfl
    have hp : GetCurrentDirBasename sampleWorld.Getwd = "demo" := by decide
    have hn : sampleWorld.Now = sampleNow := rfl
    simp only [mainAfterReturn, hr, hg, hp, hn, Option.getD_some, rowValues_sample]
    rfl


end LighthouseToSpreadsheet
